import Mathlib

/-!
Shallow embedding of the client-side playlist synchronization engine of the
repository: the `Playlist` component's `handlePlaylistResponse` dispatcher
(together with the `useEffect` that reloads songs whenever the active playlist
changes) and the command handlers `handleSwitchPlaylist` / `handleCreatePlaylist`,
with the outbound socket emissions of `PlaylistContext.tsx` modelled as an
explicit command list.

Conventions of the embedding:
- React state (`playlist`, `playlists`, `currentPlaylist`, `playlistCounts`)
  becomes the record `SessionState`; the `currentPlaylistRef` read inside the
  handler is the `cur` argument, fixed to the pre-event value for the whole
  handler invocation, exactly as the ref behaves (it is only updated by a
  `useEffect` after re-render).
- A JavaScript object (`Record<string, number>`) becomes an association list
  with JS insertion-order semantics: spread-update keeps an existing key at its
  position, a new key is appended, `delete` removes the entry.
- A handler invocation that would raise a JavaScript `TypeError` (e.g. calling
  `.map` on non-array `data`) is `Except.error`; a normal return is `Except.ok`
  with the new state and the list of socket commands emitted, in emission order.
- `step` is one full processing round: the handler itself, then the component's
  `useEffect` on `currentPlaylist` (clear the song list and, if a playlist is now
  active, emit a `pl_view` fetch for it) when the active name changed.
-/

namespace PlaylistSync

/-- A song as parsed by the component: `type Song = { artist: string; title: string }`. -/
structure Song where
  artist : String
  title : String
  deriving DecidableEq, Repr

/-- Outbound socket commands, as emitted by `PlaylistContext.tsx`:
`viewPlaylists` is `emit("pl_view_playlists", ...)`, `viewPlaylist n` is
`emit("pl_view", n)`, `plSwitch n` is `emit("pl_switch", n)`, and
`plCreate n` is `emit("pl_create", n)`. -/
inductive Cmd where
  | viewPlaylists
  | viewPlaylist (name : String)
  | plSwitch (name : String)
  | plCreate (name : String)
  deriving DecidableEq, Repr

/-- The dynamically-typed `data` field of an inbound `pl_response` payload.
`jarr` is an array of strings (the only array shape the component consumes),
`jstr` a string, `jnull` null/undefined, `jnum` a number (a representative
non-array, non-string value). -/
inductive JData where
  | jarr (xs : List String)
  | jstr (s : String)
  | jnull
  | jnum (n : Int)
  deriving DecidableEq, Repr

/-- An inbound event payload: the discriminated `{ type, data }` object.
(The handler's first guard discards non-object payloads untouched; we model
the payloads that reach the `switch`.) -/
structure Response where
  type : String
  data : JData
  deriving DecidableEq, Repr

/-- The component's session state: `currentPlaylist`, `playlists`, `playlist`
(songs of the current playlist) and `playlistCounts`. -/
structure SessionState where
  currentPlaylistName : String
  playlists : List String
  songsOfCurrent : List Song
  countsByName : List (String × Nat)
  deriving DecidableEq, Repr

/-- JavaScript truthiness of a `data` value (`if (response.data)`):
the empty string, `null` and `0` are falsy; arrays are always truthy. -/
def jsTruthy : JData → Bool
  | .jarr _ => true
  | .jstr s => s ≠ ""
  | .jnull => false
  | .jnum n => n ≠ 0

/-- Strict equality of a `data` value with a string
(`response.data === currentPlaylistRef.current`): only a string can compare
equal to a string under `===`. -/
def jsEqStr (d : JData) (s : String) : Bool :=
  match d with
  | .jstr t => t = s
  | _ => false

/-- String coercion of a `data` value, used where the code feeds `response.data`
into a string position (property key of `delete`, `setCurrentPlaylist`).
The claims only exercise string payloads there; for the other shapes this is
the JavaScript `String(...)` coercion. -/
def jsToStr : JData → String
  | .jstr s => s
  | .jarr xs => String.intercalate "," xs
  | .jnull => "null"
  | .jnum n => toString n

/-- Lookup in the counts object: `name in next` / `prev[name]`. First match wins
(a JS object cannot hold duplicate keys; operations below preserve that). -/
def mapLookup : List (String × Nat) → String → Option Nat
  | [], _ => none
  | p :: rest, key => if p.1 = key then some p.2 else mapLookup rest key

/-- Lookup with a default: `prev[name] ?? d`. -/
def mapLookupD (m : List (String × Nat)) (key : String) (d : Nat) : Nat :=
  (mapLookup m key).getD d

/-- JS spread update `{ ...prev, [k]: v }`: an existing key keeps its insertion
position and gets the new value; a fresh key is appended at the end. -/
def mapSet (m : List (String × Nat)) (k : String) (v : Nat) : List (String × Nat) :=
  if (mapLookup m k).isSome then m.map (fun p => if p.1 = k then (k, v) else p)
  else m ++ [(k, v)]

/-- JS `delete next[k]`: remove the entry for `k`, keep the rest in order. -/
def mapDel (m : List (String × Nat)) (k : String) : List (String × Nat) :=
  m.filter (fun p => p.1 ≠ k)

/-- The key set of the counts object (`Object.keys`). -/
def mapKeys (m : List (String × Nat)) : List String :=
  m.map Prod.fst

/-- Characters stripped of leading and trailing whitespace. -/
def trimChars (cs : List Char) : List Char :=
  ((cs.dropWhile Char.isWhitespace).reverse.dropWhile Char.isWhitespace).reverse

/-- JavaScript `String.prototype.trim()`: strip whitespace from both ends.
(Defined structurally over the character list so that it evaluates; the
whitespace class is spaces, tabs and line breaks, which covers every string
the component handles.) -/
def jsTrim (s : String) : String :=
  String.mk (trimChars s.toList)

/-- Case `"songs"`, per-element parsing: split at the first colon
(`s.indexOf(":")` / `substring`). Returns the characters before and after the
first colon, or `none` when the string has no colon. -/
def splitFirstColon : List Char → Option (List Char × List Char)
  | [] => none
  | c :: cs =>
    if c = ':' then some ([], cs)
    else (splitFirstColon cs).map (fun p => (c :: p.1, p.2))

/-- Parse one raw `"artist : title"` song string exactly as the `songs` case
does: no colon gives an empty artist and the trimmed whole string as title;
otherwise both sides of the first colon are trimmed. -/
def parseSong (s : String) : Song :=
  match splitFirstColon s.toList with
  | none => { artist := "", title := jsTrim s }
  | some p => { artist := jsTrim (String.mk p.1), title := jsTrim (String.mk p.2) }

/-- Case `"playlists"`, net effect of the two guarded `setCurrentPlaylist`
calls (both read the pre-event ref `cur`): if nothing is selected, select the
first entry when there is one; if the selection vanished from the list, select
`playlistList[0] || ""`. -/
def playlistsNewCurrent (cur : String) (xs : List String) : String :=
  if cur = "" then
    match xs with
    | [] => cur
    | x :: _ => x
  else if cur ∈ xs then cur
  else xs.headD ""

/-- Case `"playlists"`, counts reconciliation: seed a zero for every listed
name that has no entry yet (`if (!(name in next)) next[name] = next[name] ?? 0`),
then drop every key that is not in the list. -/
def seedCounts (m : List (String × Nat)) (names : List String) : List (String × Nat) :=
  names.foldl (fun acc name => if (mapLookup acc name).isSome then acc else acc ++ [(name, 0)]) m

/-- Case `"playlists"`, full counts update: seed then prune. -/
def playlistsNewCounts (m : List (String × Nat)) (xs : List String) : List (String × Nat) :=
  (seedCounts m xs).filter (fun p => decide (p.1 ∈ xs))

/-- Case `"songs"` state change: replace the song list with the parsed songs
and, when a playlist is active, overwrite its cached count with the parsed
length. -/
def songsNewState (cur : String) (st : SessionState) (xs : List String) : SessionState :=
  if cur ≠ "" then
    { st with
      songsOfCurrent := xs.map parseSong
      countsByName := mapSet st.countsByName cur (xs.map parseSong).length }
  else { st with songsOfCurrent := xs.map parseSong }

/-- Case `"playlists"` state change: replace the catalog, reconcile the counts,
recompute the selection, and clear the song list when the selection vanished
from the catalog. -/
def playlistsNewState (cur : String) (st : SessionState) (xs : List String) : SessionState :=
  { currentPlaylistName := playlistsNewCurrent cur xs
    playlists := xs
    songsOfCurrent := if cur ≠ "" ∧ cur ∉ xs then [] else st.songsOfCurrent
    countsByName := playlistsNewCounts st.countsByName xs }

/-- Case `"added"` state change: when a playlist is active, optimistically bump
its cached count (`(prev[name] ?? 0) + 1`). -/
def addedNewState (cur : String) (st : SessionState) : SessionState :=
  if cur ≠ "" then
    { st with countsByName := mapSet st.countsByName cur (mapLookupD st.countsByName cur 0 + 1) }
  else st

/-- Case `"removed"` state change: when a playlist is active, optimistically
decrement its cached count, floored at 0 (`Math.max(0, (prev[name] ?? 0) - 1)`). -/
def removedNewState (cur : String) (st : SessionState) : SessionState :=
  if cur ≠ "" then
    { st with countsByName := mapSet st.countsByName cur (Nat.max 0 (mapLookupD st.countsByName cur 0 - 1)) }
  else st

/-- Case `"deleted"` state change: when the payload names the active playlist,
clear the selection and the song list; when the payload is truthy, delete its
count entry. -/
def deletedNewState (cur : String) (st : SessionState) (d : JData) : SessionState :=
  let st1 :=
    if jsEqStr d cur then { st with currentPlaylistName := "", songsOfCurrent := [] }
    else st
  if jsTruthy d then { st1 with countsByName := mapDel st1.countsByName (jsToStr d) }
  else st1

/-- The `handlePlaylistResponse` callback of the `Playlist` component.
`cur` is `currentPlaylistRef.current`, the active-playlist name at entry.
Returns the updated session state and the emitted commands, or an error when
the JavaScript code would throw (non-array `data` fed to `.map` in the `songs`
case, or to `for...of` in the `playlists` case; for `playlists` a string `data`
is iterable in JS and would instead corrupt the state with a non-array value —
no claim depends on that corner and we conservatively fold it into the error
case). -/
def handleResp (cur : String) (st : SessionState) (r : Response) :
    Except String (SessionState × List Cmd) :=
  if r.type = "songs" then
    match r.data with
    | .jarr xs => .ok (songsNewState cur st xs, [])
    | _ => .error "TypeError"
  else if r.type = "playlists" then
    match r.data with
    | .jarr xs => .ok (playlistsNewState cur st xs, [])
    | _ => .error "TypeError"
  else if r.type = "added" then
    .ok (addedNewState cur st, Cmd.viewPlaylists :: (if cur ≠ "" then [Cmd.viewPlaylist cur] else []))
  else if r.type = "removed" then
    .ok (removedNewState cur st, (if cur ≠ "" then [Cmd.viewPlaylist cur] else []) ++ [Cmd.viewPlaylists])
  else if r.type = "switched" then
    if jsTruthy r.data then
      .ok ({ st with currentPlaylistName := jsToStr r.data },
           [Cmd.viewPlaylist (jsToStr r.data), Cmd.viewPlaylists])
    else .ok (st, [Cmd.viewPlaylists])
  else if r.type = "created" then
    if jsTruthy r.data then
      .ok ({ st with
             currentPlaylistName := jsToStr r.data
             countsByName := mapSet st.countsByName (jsToStr r.data) 0 },
           [Cmd.viewPlaylists, Cmd.viewPlaylist (jsToStr r.data)])
    else .ok (st, [Cmd.viewPlaylists])
  else if r.type = "deleted" then
    .ok (deletedNewState cur st r.data, [Cmd.viewPlaylists])
  else
    .ok (st, Cmd.viewPlaylists :: (if cur ≠ "" then [Cmd.viewPlaylist cur] else []))

/-- One full processing round for an inbound event: run the handler with the
ref fixed to the pre-event active name, then, when the active name changed,
apply the component's `useEffect` on `currentPlaylist` (clear the song list;
if a playlist is now active, emit a songs fetch for it). -/
def step (st : SessionState) (r : Response) : Except String (SessionState × List Cmd) :=
  match handleResp st.currentPlaylistName st r with
  | .error e => .error e
  | .ok (st1, cmds) =>
    if st1.currentPlaylistName = st.currentPlaylistName then .ok (st1, cmds)
    else
      .ok ({ st1 with songsOfCurrent := [] },
           cmds ++ (if st1.currentPlaylistName ≠ "" then [Cmd.viewPlaylist st1.currentPlaylistName] else []))

/-- The component's `handleSwitchPlaylist` click handler, with the
`PlaylistContext.switchPlaylist` emission made explicit: a click on the already
active name returns before emitting; otherwise `pl_switch` is emitted. The
handler itself never mutates session state (state changes arrive later as
`switched` events). -/
def handleSwitchPlaylist (st : SessionState) (name : String) : SessionState × List Cmd :=
  if name = st.currentPlaylistName then (st, [])
  else (st, [Cmd.plSwitch name])

/-- The component's `handleCreatePlaylist` handler, with the
`PlaylistContext.createPlaylist` emission made explicit. Besides the session
state it returns the playlist-name input draft (`playlistName`): a blank draft
returns before emitting and leaves the draft alone; otherwise `pl_create` is
emitted with the trimmed name and the draft is cleared. -/
def handleCreatePlaylist (st : SessionState) (playlistName : String) :
    SessionState × String × List Cmd :=
  let name := jsTrim playlistName
  if name = "" then (st, playlistName, [])
  else (st, "", [Cmd.plCreate name])

/-! Lemmas about the JS-object operations. -/

theorem mapLookup_append_of_none (m l : List (String × Nat)) (k : String)
    (h : mapLookup m k = none) : mapLookup (m ++ l) k = mapLookup l k := by
  induction m with
  | nil => rfl
  | cons p rest ih =>
    by_cases hp : p.1 = k
    · simp [mapLookup, hp] at h
    · simp [mapLookup, hp] at h ⊢
      exact ih h

theorem mapLookup_setValue (m : List (String × Nat)) (k : String) (v : Nat)
    (h : (mapLookup m k).isSome) :
    mapLookup (m.map (fun p => if p.1 = k then (k, v) else p)) k = some v := by
  induction m with
  | nil => simp [mapLookup] at h
  | cons p rest ih =>
    by_cases hp : p.1 = k
    · simp [mapLookup, hp]
    · simp [mapLookup, hp] at h ⊢
      exact ih h

theorem mapLookup_mapSet_self (m : List (String × Nat)) (k : String) (v : Nat) :
    mapLookup (mapSet m k v) k = some v := by
  unfold mapSet
  by_cases h : (mapLookup m k).isSome
  · rw [if_pos h]
    exact mapLookup_setValue m k v h
  · rw [if_neg h]
    have h0 : mapLookup m k = none := Option.not_isSome_iff_eq_none.mp h
    rw [mapLookup_append_of_none m _ k h0]
    simp [mapLookup]

theorem mapLookupD_mapSet_self (m : List (String × Nat)) (k : String) (v d : Nat) :
    mapLookupD (mapSet m k v) k d = v := by
  simp [mapLookupD, mapLookup_mapSet_self]

theorem mapLookup_mapDel_self (m : List (String × Nat)) (k : String) :
    mapLookup (mapDel m k) k = none := by
  induction m with
  | nil => rfl
  | cons p rest ih =>
    by_cases hp : p.1 = k
    · simpa [mapDel, List.filter_cons, hp] using ih
    · simpa [mapDel, List.filter_cons, mapLookup, hp] using ih

theorem mapLookup_mapDel_of_ne (m : List (String × Nat)) (k q : String) (h : q ≠ k) :
    mapLookup (mapDel m k) q = mapLookup m q := by
  induction m with
  | nil => rfl
  | cons p rest ih =>
    by_cases hp : p.1 = k
    · have hq : ¬ (p.1 = q) := fun hh => h (hh.symm.trans hp)
      have hdel : mapDel (p :: rest) k = mapDel rest k := by
        simp [mapDel, List.filter_cons, hp]
      rw [hdel, ih]
      simp [mapLookup, hq]
    · have hdel : mapDel (p :: rest) k = p :: mapDel rest k := by
        simp [mapDel, List.filter_cons, hp]
      rw [hdel]
      by_cases hq : p.1 = q
      · simp [mapLookup, hq]
      · simp [mapLookup, hq, ih]

theorem mem_mapKeys_iff (m : List (String × Nat)) (k : String) :
    k ∈ mapKeys m ↔ (mapLookup m k).isSome := by
  induction m with
  | nil => simp [mapKeys, mapLookup]
  | cons p rest ih =>
    have hcons : mapKeys (p :: rest) = p.1 :: mapKeys rest := rfl
    rw [hcons, List.mem_cons, ih]
    by_cases hp : p.1 = k
    · simp [mapLookup, hp]
    · have hp' : ¬ (k = p.1) := fun hh => hp hh.symm
      simp [mapLookup, hp, hp']

theorem seedCounts_cons (m : List (String × Nat)) (x : String) (xs : List String) :
    seedCounts m (x :: xs) =
      seedCounts (if (mapLookup m x).isSome then m else m ++ [(x, 0)]) xs := rfl

theorem mem_mapKeys_seedCounts (xs : List String) :
    ∀ (m : List (String × Nat)) (k : String),
      k ∈ mapKeys (seedCounts m xs) ↔ k ∈ mapKeys m ∨ k ∈ xs := by
  induction xs with
  | nil =>
    intro m k
    simp [seedCounts]
  | cons x xs ih =>
    intro m k
    rw [seedCounts_cons, ih]
    by_cases hm : (mapLookup m x).isSome
    · rw [if_pos hm]
      constructor
      · rintro (h | h)
        · exact Or.inl h
        · exact Or.inr (List.mem_cons_of_mem _ h)
      · rintro (h | h)
        · exact Or.inl h
        · rcases List.mem_cons.mp h with rfl | h
          · exact Or.inl ((mem_mapKeys_iff m k).mpr hm)
          · exact Or.inr h
    · rw [if_neg hm]
      have hkeys : mapKeys (m ++ [(x, 0)]) = mapKeys m ++ [x] := by
        simp [mapKeys]
      rw [hkeys]
      simp [List.mem_append, List.mem_cons]
      tauto

theorem mem_mapKeys_filterMem (m : List (String × Nat)) (xs : List String) (k : String) :
    k ∈ mapKeys (m.filter (fun p => decide (p.1 ∈ xs))) ↔ k ∈ mapKeys m ∧ k ∈ xs := by
  simp only [mapKeys, List.mem_map, List.mem_filter, decide_eq_true_eq]
  constructor
  · rintro ⟨p, ⟨hp, hx⟩, hk⟩
    exact ⟨⟨p, hp, hk⟩, hk ▸ hx⟩
  · rintro ⟨⟨p, hp, hk⟩, hx⟩
    exact ⟨p, ⟨hp, hk ▸ hx⟩, hk⟩

theorem mem_mapKeys_playlistsNewCounts (m : List (String × Nat)) (xs : List String) (k : String) :
    k ∈ mapKeys (playlistsNewCounts m xs) ↔ k ∈ xs := by
  unfold playlistsNewCounts
  rw [mem_mapKeys_filterMem, mem_mapKeys_seedCounts]
  tauto

theorem playlistsNewCurrent_empty_or_mem (cur : String) (xs : List String) :
    playlistsNewCurrent cur xs = "" ∨ playlistsNewCurrent cur xs ∈ xs := by
  unfold playlistsNewCurrent
  by_cases hc : cur = ""
  · rw [if_pos hc]
    cases xs with
    | nil => exact Or.inl hc
    | cons x xs => exact Or.inr (List.mem_cons_self x xs)
  · rw [if_neg hc]
    by_cases hm : cur ∈ xs
    · rw [if_pos hm]
      exact Or.inr hm
    · rw [if_neg hm]
      cases xs with
      | nil => exact Or.inl rfl
      | cons x xs => exact Or.inr (by simp [List.headD])

/-! Unfolding equations for the dispatcher, one per `switch` case. -/

theorem handleResp_songs_arr (cur : String) (st : SessionState) (xs : List String) :
    handleResp cur st ⟨"songs", .jarr xs⟩ = .ok (songsNewState cur st xs, []) := rfl

theorem handleResp_songs_num (cur : String) (st : SessionState) (n : Int) :
    handleResp cur st ⟨"songs", .jnum n⟩ = .error "TypeError" := rfl

theorem handleResp_playlists_arr (cur : String) (st : SessionState) (xs : List String) :
    handleResp cur st ⟨"playlists", .jarr xs⟩ = .ok (playlistsNewState cur st xs, []) := rfl

theorem handleResp_added_eq (cur : String) (st : SessionState) (d : JData) :
    handleResp cur st ⟨"added", d⟩ =
      .ok (addedNewState cur st,
           Cmd.viewPlaylists :: (if cur ≠ "" then [Cmd.viewPlaylist cur] else [])) := rfl

theorem handleResp_deleted_eq (cur : String) (st : SessionState) (d : JData) :
    handleResp cur st ⟨"deleted", d⟩ =
      .ok (deletedNewState cur st d, [Cmd.viewPlaylists]) := rfl

theorem handleResp_default_eq (cur : String) (st : SessionState) (t : String) (d : JData)
    (h1 : t ≠ "songs") (h2 : t ≠ "playlists") (h3 : t ≠ "added") (h4 : t ≠ "removed")
    (h5 : t ≠ "switched") (h6 : t ≠ "created") (h7 : t ≠ "deleted") :
    handleResp cur st ⟨t, d⟩ =
      .ok (st, Cmd.viewPlaylists :: (if cur ≠ "" then [Cmd.viewPlaylist cur] else [])) := by
  unfold handleResp
  rw [if_neg h1, if_neg h2, if_neg h3, if_neg h4, if_neg h5, if_neg h6, if_neg h7]

/-- Processing an event whose handler returns normally: the round finishes with
the component's `useEffect` on `currentPlaylist`. -/
theorem step_ok_eq (st : SessionState) (r : Response) (st1 : SessionState) (cmds : List Cmd)
    (h : handleResp st.currentPlaylistName st r = .ok (st1, cmds)) :
    step st r =
      if st1.currentPlaylistName = st.currentPlaylistName then .ok (st1, cmds)
      else
        .ok ({ st1 with songsOfCurrent := [] },
             cmds ++ (if st1.currentPlaylistName ≠ "" then [Cmd.viewPlaylist st1.currentPlaylistName] else [])) := by
  unfold step
  rw [h]

theorem step_err_eq (st : SessionState) (r : Response) (e : String)
    (h : handleResp st.currentPlaylistName st r = .error e) :
    step st r = .error e := by
  unfold step
  rw [h]

/-- A round that leaves the active name unchanged skips the `useEffect`. -/
theorem step_ok_same (st : SessionState) (r : Response) (st1 : SessionState) (cmds : List Cmd)
    (h : handleResp st.currentPlaylistName st r = .ok (st1, cmds))
    (hsame : st1.currentPlaylistName = st.currentPlaylistName) :
    step st r = .ok (st1, cmds) := by
  rw [step_ok_eq st r st1 cmds h, if_pos hsame]

/-- A round that changes the active name triggers the `useEffect`: the song
list is cleared and, when a playlist is now active, its songs are fetched. -/
theorem step_ok_changed (st : SessionState) (r : Response) (st1 : SessionState) (cmds : List Cmd)
    (h : handleResp st.currentPlaylistName st r = .ok (st1, cmds))
    (hdiff : st1.currentPlaylistName ≠ st.currentPlaylistName) :
    step st r =
      .ok ({ st1 with songsOfCurrent := [] },
           cmds ++ (if st1.currentPlaylistName ≠ "" then [Cmd.viewPlaylist st1.currentPlaylistName] else [])) := by
  rw [step_ok_eq st r st1 cmds h, if_neg hdiff]

/-- Full description of one `playlists`-type round: the round always succeeds,
and the resulting selection, counts, catalog, and emitted commands are the
case functions applied to the pre-event state. -/
theorem step_playlists_spec (st : SessionState) (xs : List String) :
    ∃ st2 c2, step st ⟨"playlists", .jarr xs⟩ = .ok (st2, c2) ∧
      st2.currentPlaylistName = playlistsNewCurrent st.currentPlaylistName xs ∧
      st2.countsByName = playlistsNewCounts st.countsByName xs ∧
      st2.playlists = xs ∧
      c2 = (if playlistsNewCurrent st.currentPlaylistName xs = st.currentPlaylistName then []
            else if playlistsNewCurrent st.currentPlaylistName xs ≠ "" then
              [Cmd.viewPlaylist (playlistsNewCurrent st.currentPlaylistName xs)]
            else []) := by
  rw [step_ok_eq st _ _ _ (handleResp_playlists_arr st.currentPlaylistName st xs)]
  by_cases hc : (playlistsNewState st.currentPlaylistName st xs).currentPlaylistName
      = st.currentPlaylistName
  · have hc' : playlistsNewCurrent st.currentPlaylistName xs = st.currentPlaylistName := hc
    rw [if_pos hc]
    refine ⟨_, _, rfl, rfl, rfl, rfl, ?_⟩
    rw [if_pos hc']
  · have hc' : ¬ (playlistsNewCurrent st.currentPlaylistName xs = st.currentPlaylistName) := hc
    rw [if_neg hc]
    refine ⟨_, _, rfl, rfl, rfl, rfl, ?_⟩
    rw [if_neg hc']
    simp [playlistsNewState]

/-! Lemmas about the first-colon split. -/

theorem splitFirstColon_of_not_mem (cs : List Char) (h : (':' : Char) ∉ cs) :
    splitFirstColon cs = none := by
  induction cs with
  | nil => rfl
  | cons c cs ih =>
    have hc : ¬ (c = ':') := fun hh => h (hh ▸ List.mem_cons_self c cs)
    have hm : (':' : Char) ∉ cs := fun hm => h (List.mem_cons_of_mem c hm)
    simp [splitFirstColon, hc, ih hm]

theorem splitFirstColon_append (a b : List Char) (h : (':' : Char) ∉ a) :
    splitFirstColon (a ++ ':' :: b) = some (a, b) := by
  induction a with
  | nil => simp [splitFirstColon]
  | cons c a ih =>
    have hc : ¬ (c = ':') := fun hh => h (hh ▸ List.mem_cons_self c a)
    have hm : (':' : Char) ∉ a := fun hm => h (List.mem_cons_of_mem c hm)
    simp [splitFirstColon, hc, ih hm]

/-- C5: for every input string, song parsing splits at the first colon and
trims surrounding whitespace from both fields; a string with no colon parses
to an empty artist and the whole trimmed string as title; in particular the
two wire-format examples parse as the spec states. -/
theorem C5_parse_splits_at_first_colon (s t : String) (a b : List Char)
    (ha : (':' : Char) ∉ a) (hs : s.toList = a ++ ':' :: b)
    (ht : (':' : Char) ∉ t.toList) :
    parseSong s = { artist := jsTrim (String.mk a), title := jsTrim (String.mk b) } ∧
    parseSong t = { artist := "", title := jsTrim t } ∧
    parseSong "Kendrick Lamar : HUMBLE." = { artist := "Kendrick Lamar", title := "HUMBLE." } ∧
    parseSong "HUMBLE." = { artist := "", title := "HUMBLE." } := by
  refine ⟨?_, ?_, ?_, ?_⟩
  · unfold parseSong
    rw [hs, splitFirstColon_append a b ha]
  · unfold parseSong
    rw [splitFirstColon_of_not_mem _ ht]
  · rfl
  · rfl

/-- Closed instance of the C5 theorem at concrete inputs. -/
theorem C5_parse_splits_at_first_colon_witness :
    parseSong "ab: cd" = { artist := jsTrim (String.mk ['a', 'b']), title := jsTrim (String.mk [' ', 'c', 'd']) } ∧
    parseSong "xy" = { artist := "", title := jsTrim "xy" } ∧
    parseSong "Kendrick Lamar : HUMBLE." = { artist := "Kendrick Lamar", title := "HUMBLE." } ∧
    parseSong "HUMBLE." = { artist := "", title := "HUMBLE." } :=
  C5_parse_splits_at_first_colon "ab: cd" "xy" ['a', 'b'] [' ', 'c', 'd']
    (by decide) (by decide) (by decide)

/-- C2: after any `playlists`-type event is processed, the active playlist name
is either empty or a member of the playlist list delivered by that event,
whatever the prior session state was. -/
theorem C2_current_empty_or_member_after_playlists (st : SessionState) (xs : List String) :
    ∃ st2 c2, step st ⟨"playlists", .jarr xs⟩ = .ok (st2, c2) ∧
      (st2.currentPlaylistName = "" ∨ st2.currentPlaylistName ∈ xs) := by
  obtain ⟨st2, c2, hstep, hcur, -, -, -⟩ := step_playlists_spec st xs
  refine ⟨st2, c2, hstep, ?_⟩
  rw [hcur]
  exact playlistsNewCurrent_empty_or_mem st.currentPlaylistName xs

/-- C3: after any `playlists`-type event is processed, the key set of the
count cache is exactly the set of names delivered by that event: stale keys
are deleted and missing ones are seeded, whatever the prior session state was. -/
theorem C3_counts_keys_equal_playlists (st : SessionState) (xs : List String) :
    ∃ st2 c2, step st ⟨"playlists", .jarr xs⟩ = .ok (st2, c2) ∧
      ∀ k, k ∈ mapKeys st2.countsByName ↔ k ∈ xs := by
  obtain ⟨st2, c2, hstep, -, hcounts, -, -⟩ := step_playlists_spec st xs
  refine ⟨st2, c2, hstep, fun k => ?_⟩
  rw [hcounts]
  exact mem_mapKeys_playlistsNewCounts st.countsByName xs k

/-- C1: with an active playlist, an `added` event bumps the active playlist's
cached count by exactly one (starting from 0 if absent), and a subsequent
`songs` event overwrites that count with exactly the length of the parsed song
list. -/
theorem C1_added_bump_then_songs_overwrite (st : SessionState) (d : JData) (xs : List String)
    (h : st.currentPlaylistName ≠ "") :
    ∃ st1 c1 st2 c2,
      step st ⟨"added", d⟩ = .ok (st1, c1) ∧
      st1.currentPlaylistName = st.currentPlaylistName ∧
      mapLookupD st1.countsByName st.currentPlaylistName 0
        = mapLookupD st.countsByName st.currentPlaylistName 0 + 1 ∧
      step st1 ⟨"songs", .jarr xs⟩ = .ok (st2, c2) ∧
      mapLookupD st2.countsByName st.currentPlaylistName 0 = (xs.map parseSong).length := by
  have e1 := handleResp_added_eq st.currentPlaylistName st d
  unfold addedNewState at e1
  rw [if_pos h, if_pos h] at e1
  have s1 := step_ok_same st _ _ _ e1 rfl
  have s2 : step { st with countsByName := (mapSet st.countsByName st.currentPlaylistName
          (mapLookupD st.countsByName st.currentPlaylistName 0 + 1)) } ⟨"songs", .jarr xs⟩
      = .ok ({ st with
          songsOfCurrent := xs.map parseSong
          countsByName := (mapSet (mapSet st.countsByName st.currentPlaylistName
            (mapLookupD st.countsByName st.currentPlaylistName 0 + 1))
            st.currentPlaylistName (xs.map parseSong).length) }, []) := by
    apply step_ok_same
    · simp [handleResp_songs_arr, songsNewState, h]
    · rfl
  refine ⟨_, _, _, _, s1, rfl, ?_, s2, ?_⟩
  · exact mapLookupD_mapSet_self _ _ _ _
  · exact mapLookupD_mapSet_self _ _ _ _

/-- Closed instance of the C1 theorem at concrete inputs. -/
theorem C1_added_bump_then_songs_overwrite_witness :
    ∃ st1 c1 st2 c2,
      step ⟨"A", ["A"], [], []⟩ ⟨"added", .jnull⟩ = .ok (st1, c1) ∧
      st1.currentPlaylistName = "A" ∧
      mapLookupD st1.countsByName "A" 0 = mapLookupD ([] : List (String × Nat)) "A" 0 + 1 ∧
      step st1 ⟨"songs", .jarr ["x : y", "z"]⟩ = .ok (st2, c2) ∧
      mapLookupD st2.countsByName "A" 0 = (["x : y", "z"].map parseSong).length :=
  C1_added_bump_then_songs_overwrite ⟨"A", ["A"], [], []⟩ .jnull ["x : y", "z"] (by decide)

/-- C4: when a `deleted` event names the active playlist and the subsequent
catalog refresh still lists at least one playlist (the deleted name no longer
among them, and playlist names being non-empty), the engine moves the active
selection to the first remaining playlist, emits a songs fetch for it, and
does not remain on the deleted name. -/
theorem C4_deleted_active_reselects_first (st : SessionState) (ys : List String) (y : String)
    (hcur : st.currentPlaylistName ≠ "") (hy : ys.head? = some y) (hy0 : y ≠ "")
    (hmem : st.currentPlaylistName ∉ ys) :
    ∃ st1 c1 st2 c2,
      step st ⟨"deleted", .jstr st.currentPlaylistName⟩ = .ok (st1, c1) ∧
      st1.currentPlaylistName = "" ∧
      step st1 ⟨"playlists", .jarr ys⟩ = .ok (st2, c2) ∧
      st2.currentPlaylistName = y ∧
      Cmd.viewPlaylist y ∈ c2 ∧
      st2.currentPlaylistName ≠ st.currentPlaylistName := by
  have s1 : step st ⟨"deleted", .jstr st.currentPlaylistName⟩
      = .ok ({ st with
          currentPlaylistName := ""
          songsOfCurrent := []
          countsByName := mapDel st.countsByName st.currentPlaylistName }, [Cmd.viewPlaylists]) := by
    have e1 := handleResp_deleted_eq st.currentPlaylistName st (.jstr st.currentPlaylistName)
    have hd : deletedNewState st.currentPlaylistName st (.jstr st.currentPlaylistName)
        = { st with
            currentPlaylistName := ""
            songsOfCurrent := []
            countsByName := mapDel st.countsByName st.currentPlaylistName } := by
      simp [deletedNewState, jsEqStr, jsTruthy, jsToStr, hcur]
    rw [hd] at e1
    have s := step_ok_changed st _ _ _ e1 (fun hh => hcur hh.symm)
    simpa using s
  obtain ⟨a, t, rfl⟩ : ∃ a t, ys = a :: t := by
    cases ys with
    | nil => simp at hy
    | cons a t => exact ⟨a, t, rfl⟩
  have hay : a = y := by simpa using hy
  subst hay
  obtain ⟨st2, c2, hstep2, hcur2, -, -, hc2⟩ :=
    step_playlists_spec { st with
      currentPlaylistName := ""
      songsOfCurrent := []
      countsByName := mapDel st.countsByName st.currentPlaylistName } (a :: t)
  have hnewcur : playlistsNewCurrent "" (a :: t) = a := by
    simp [playlistsNewCurrent]
  have hcur2' : st2.currentPlaylistName = a := by
    rw [hcur2]
    exact hnewcur
  have hc2' : c2 = [Cmd.viewPlaylist a] := by
    rw [hc2]
    have hne : ¬ (playlistsNewCurrent (SessionState.currentPlaylistName { st with
        currentPlaylistName := ""
        songsOfCurrent := []
        countsByName := mapDel st.countsByName st.currentPlaylistName }) (a :: t)
        = SessionState.currentPlaylistName { st with
        currentPlaylistName := ""
        songsOfCurrent := []
        countsByName := mapDel st.countsByName st.currentPlaylistName }) := by
      show ¬ (playlistsNewCurrent "" (a :: t) = "")
      rw [hnewcur]
      exact hy0
    rw [if_neg hne]
    have hne2 : playlistsNewCurrent "" (a :: t) ≠ "" := by
      rw [hnewcur]
      exact hy0
    rw [if_pos hne2, hnewcur]
  refine ⟨_, _, st2, c2, s1, rfl, hstep2, hcur2', ?_, ?_⟩
  · rw [hc2']
    exact List.mem_singleton.mpr rfl
  · rw [hcur2']
    exact fun hh => hmem (hh ▸ List.mem_cons_self a t)

/-- Closed instance of the C4 theorem at concrete inputs. -/
theorem C4_deleted_active_reselects_first_witness :
    ∃ st1 c1 st2 c2,
      step ⟨"A", ["A", "B"], [], [("A", 1), ("B", 2)]⟩ ⟨"deleted", .jstr "A"⟩ = .ok (st1, c1) ∧
      st1.currentPlaylistName = "" ∧
      step st1 ⟨"playlists", .jarr ["B"]⟩ = .ok (st2, c2) ∧
      st2.currentPlaylistName = "B" ∧
      Cmd.viewPlaylist "B" ∈ c2 ∧
      st2.currentPlaylistName ≠ "A" :=
  C4_deleted_active_reselects_first ⟨"A", ["A", "B"], [], [("A", 1), ("B", 2)]⟩ ["B"] "B"
    (by decide) rfl (by decide) (by decide)

/-- C6 counterexample: a recognized `type` (`songs`) whose `data` is not an
array makes the handler throw a `TypeError` (calling `.map` on a number), so
the claim that every malformed payload is handled without throwing is false. -/
theorem C6_counterexample_songs_nonarray_throws :
    step ⟨"", [], [], []⟩ ⟨"songs", .jnum 5⟩ = .error "TypeError" :=
  step_err_eq _ _ _ (handleResp_songs_num _ _ _)

/-- C6 amended: a payload with an unrecognized `type` does not throw — it is
ignored and the engine falls back to a full refresh (re-request the catalog
and, when a playlist is active, its songs); a recognized `type` with non-array
`data` is not guarded, however: a `songs` event with numeric `data` throws. -/
theorem C6_unknown_type_fallback_no_throw (st : SessionState) (t : String) (d : JData)
    (ht : t ∉ ["songs", "playlists", "added", "removed", "switched", "created", "deleted"]) :
    step st ⟨t, d⟩ = .ok (st, Cmd.viewPlaylists ::
        (if st.currentPlaylistName ≠ "" then [Cmd.viewPlaylist st.currentPlaylistName] else [])) ∧
    step st ⟨"songs", .jnum 5⟩ = .error "TypeError" := by
  constructor
  · have h1 : t ≠ "songs" := fun hh => ht (by simp [hh])
    have h2 : t ≠ "playlists" := fun hh => ht (by simp [hh])
    have h3 : t ≠ "added" := fun hh => ht (by simp [hh])
    have h4 : t ≠ "removed" := fun hh => ht (by simp [hh])
    have h5 : t ≠ "switched" := fun hh => ht (by simp [hh])
    have h6 : t ≠ "created" := fun hh => ht (by simp [hh])
    have h7 : t ≠ "deleted" := fun hh => ht (by simp [hh])
    have e := handleResp_default_eq st.currentPlaylistName st t d h1 h2 h3 h4 h5 h6 h7
    exact step_ok_same st _ _ _ e rfl
  · exact step_err_eq st _ _ (handleResp_songs_num _ _ _)

/-- Closed instance of the C6 amended theorem at concrete inputs. -/
theorem C6_unknown_type_fallback_no_throw_witness :
    step ⟨"A", [], [], []⟩ ⟨"bogus", .jnull⟩
      = .ok (⟨"A", [], [], []⟩, [Cmd.viewPlaylists, Cmd.viewPlaylist "A"]) ∧
    step ⟨"A", [], [], []⟩ ⟨"songs", .jnum 5⟩ = .error "TypeError" :=
  C6_unknown_type_fallback_no_throw ⟨"A", [], [], []⟩ "bogus" .jnull (by decide)

/-- C7: clicking the already-active playlist name is a no-op — the click
handler returns before emitting `pl_switch`, and the session state is left
unchanged. -/
theorem C7_switch_to_active_noop (st : SessionState) :
    handleSwitchPlaylist st st.currentPlaylistName = (st, []) := by
  simp [handleSwitchPlaylist]

/-- C8: a playlist name that is empty after trimming whitespace makes the
create handler a silent no-op: no `pl_create` is emitted and nothing (state or
input draft) changes. -/
theorem C8_create_blank_name_noop (st : SessionState) (p : String) (h : jsTrim p = "") :
    handleCreatePlaylist st p = (st, p, []) := by
  simp [handleCreatePlaylist, h]

/-- Closed instance of the C8 theorem at concrete inputs. -/
theorem C8_create_blank_name_noop_witness :
    handleCreatePlaylist ⟨"", [], [], []⟩ "   " = (⟨"", [], [], []⟩, "   ", []) :=
  C8_create_blank_name_noop ⟨"", [], [], []⟩ "   " (by decide)

/-- C9: with no active playlist, a `songs` event replaces the song list with
the parsed songs but leaves the count cache (and everything else) untouched —
no entry is created or updated for any key, the empty string included. -/
theorem C9_songs_without_active_frame (st : SessionState) (xs : List String)
    (h : st.currentPlaylistName = "") :
    ∃ st2, step st ⟨"songs", .jarr xs⟩ = .ok (st2, []) ∧
      st2.songsOfCurrent = xs.map parseSong ∧
      st2.countsByName = st.countsByName ∧
      st2.currentPlaylistName = st.currentPlaylistName ∧
      st2.playlists = st.playlists := by
  have e := handleResp_songs_arr st.currentPlaylistName st xs
  have hs : songsNewState st.currentPlaylistName st xs
      = { st with songsOfCurrent := xs.map parseSong } := by
    simp [songsNewState, h]
  rw [hs] at e
  have s := step_ok_same st _ _ _ e rfl
  exact ⟨_, s, rfl, rfl, rfl, rfl⟩

/-- Closed instance of the C9 theorem at concrete inputs. -/
theorem C9_songs_without_active_frame_witness :
    ∃ st2, step ⟨"", ["A"], [], [("A", 1)]⟩ ⟨"songs", .jarr ["x : y"]⟩ = .ok (st2, []) ∧
      st2.songsOfCurrent = ["x : y"].map parseSong ∧
      st2.countsByName = [("A", 1)] ∧
      st2.currentPlaylistName = "" ∧
      st2.playlists = ["A"] :=
  C9_songs_without_active_frame ⟨"", ["A"], [], [("A", 1)]⟩ ["x : y"] rfl

/-- C10: a `deleted` event naming a playlist other than the active one leaves
the selection, the song list and the catalog unchanged, removes at most that
playlist's count entry, and leaves every other count entry unchanged. -/
theorem C10_deleted_inactive_frame (st : SessionState) (name : String)
    (h : name ≠ st.currentPlaylistName) :
    ∃ st2, step st ⟨"deleted", .jstr name⟩ = .ok (st2, [Cmd.viewPlaylists]) ∧
      st2.currentPlaylistName = st.currentPlaylistName ∧
      st2.songsOfCurrent = st.songsOfCurrent ∧
      st2.playlists = st.playlists ∧
      (∀ k, k ≠ name → mapLookup st2.countsByName k = mapLookup st.countsByName k) ∧
      (mapLookup st2.countsByName name = none ∨
        mapLookup st2.countsByName name = mapLookup st.countsByName name) := by
  by_cases hn : name = ""
  · have h0 : ("" : String) ≠ st.currentPlaylistName := hn ▸ h
    have hd : deletedNewState st.currentPlaylistName st (.jstr name) = st := by
      simp [deletedNewState, jsEqStr, jsTruthy, hn, h0]
    have e := handleResp_deleted_eq st.currentPlaylistName st (.jstr name)
    rw [hd] at e
    have s := step_ok_same st _ _ _ e rfl
    exact ⟨st, s, rfl, rfl, rfl, fun k _ => rfl, Or.inr rfl⟩
  · have hd : deletedNewState st.currentPlaylistName st (.jstr name)
        = { st with countsByName := mapDel st.countsByName name } := by
      simp [deletedNewState, jsEqStr, jsTruthy, jsToStr, hn, h]
    have e := handleResp_deleted_eq st.currentPlaylistName st (.jstr name)
    rw [hd] at e
    have s := step_ok_same st _ _ _ e rfl
    refine ⟨_, s, rfl, rfl, rfl, ?_, Or.inl ?_⟩
    · intro k hk
      exact mapLookup_mapDel_of_ne st.countsByName name k hk
    · exact mapLookup_mapDel_self st.countsByName name

/-- Closed instance of the C10 theorem at concrete inputs. -/
theorem C10_deleted_inactive_frame_witness :
    ∃ st2, step ⟨"A", ["A", "B"], [], [("A", 1), ("B", 2)]⟩ ⟨"deleted", .jstr "B"⟩
        = .ok (st2, [Cmd.viewPlaylists]) ∧
      st2.currentPlaylistName = "A" ∧
      st2.songsOfCurrent = [] ∧
      st2.playlists = ["A", "B"] ∧
      (∀ k, k ≠ "B" → mapLookup st2.countsByName k = mapLookup [("A", 1), ("B", 2)] k) ∧
      (mapLookup st2.countsByName "B" = none ∨
        mapLookup st2.countsByName "B" = mapLookup [("A", 1), ("B", 2)] "B") :=
  C10_deleted_inactive_frame ⟨"A", ["A", "B"], [], [("A", 1), ("B", 2)]⟩ "B" (by decide)

end PlaylistSync
